import Mathlib

/-!
Shallow embedding of `src/scripts/scraper.py` (class `GooglePlayScraper`):
a batch review collector that, for a mapping of app identifiers to display
names, fetches reviews per identifier (skipping identifiers whose output
file for the current day already exists), persists them as CSV files and
returns the list of produced file paths.

The file system is modelled explicitly as an association list from paths to
CSV contents plus a set of ensured directories; the external retrieval
capability (`reviews_all`) is a function parameter returning
`Option (List ReviewRecord)`, where `none` models a raised exception.
-/

namespace Scraper

/-- A calendar date-time, as carried by a Python `datetime` value
(the fields consumed by `strftime('%Y%m%d')` and
`strftime('%Y-%m-%d %H:%M:%S')`). -/
structure DateTime where
  year : Nat
  month : Nat
  day : Nat
  hour : Nat
  minute : Nat
  second : Nat
deriving DecidableEq, Repr

/-- Zero-pad a numeral to two digits, as `strftime` does for `%m`, `%d`,
`%H`, `%M`, `%S`. -/
def pad2 (n : Nat) : String :=
  if n < 10 then "0" ++ Nat.repr n else Nat.repr n

/-- Zero-pad a numeral to four digits, as `strftime` does for `%Y`. -/
def pad4 (n : Nat) : String :=
  if n < 10 then "000" ++ Nat.repr n
  else if n < 100 then "00" ++ Nat.repr n
  else if n < 1000 then "0" ++ Nat.repr n
  else Nat.repr n

/-- `datetime.strftime('%Y%m%d')`: the run-date stamp used in file names. -/
def formatYYYYMMDD (d : DateTime) : String :=
  pad4 d.year ++ pad2 d.month ++ pad2 d.day

/-- `datetime.strftime('%Y-%m-%d %H:%M:%S')`: the review-date format used in
the `date` column. -/
def formatDateTime (d : DateTime) : String :=
  pad4 d.year ++ "-" ++ pad2 d.month ++ "-" ++ pad2 d.day ++ " " ++
    pad2 d.hour ++ ":" ++ pad2 d.minute ++ ":" ++ pad2 d.second

/-- One CSV cell as written by `csv.DictWriter.writerow`: a string, an
integer, or Python `None`. -/
inductive Cell where
  | str (s : String)
  | int (n : Int)
  | null
deriving DecidableEq, Repr

/-- The value found under the `'at'` key of a review dictionary: absent,
a `datetime` instance, or some non-`datetime` value (the code's
`isinstance(review_date, datetime)` check distinguishes the three). -/
inductive AtVal where
  | absent
  | dt (d : DateTime)
  | nonDT
deriving DecidableEq, Repr

/-- One review dictionary as produced by the external `reviews_all`
capability; only the keys the code consumes are modelled.
`content = none` models an absent `'content'` key (the code defaults it
to `''`), `score = none` an absent `'score'` key (defaulted to `None`). -/
structure ReviewRecord where
  content : Option String
  score : Option Int
  at' : AtVal
deriving DecidableEq, Repr

/-- The `Sort` enumeration of the `google_play_scraper` library. -/
inductive SortOrder where
  | newest
  | mostRelevant
  | rating
deriving DecidableEq, Repr

/-- Python `str.replace(' ', '_')` for the single-character pattern used by
the code: every space becomes an underscore. -/
def underscorify (s : String) : String :=
  String.mk (s.data.map (fun c => if c = ' ' then '_' else c))

/-- `os.path.join` on POSIX for the two-argument, relative-second-argument
case the code uses: empty first component yields the second; otherwise a
separator is inserted unless the first component already ends in one. -/
def joinPath (d f : String) : String :=
  if d = "" then f
  else if d.data.getLast? = some '/' then d ++ f
  else d ++ "/" ++ f

/-- Split a character list on `'/'` (helper for directory ancestry). -/
def splitSlash : List Char → List (List Char)
  | [] => [[]]
  | c :: rest =>
    let r := splitSlash rest
    if c = '/' then [] :: r
    else
      match r with
      | [] => [[c]]
      | h :: t => (c :: h) :: t

/-- Re-join path segments with `'/'` (inverse of `splitSlash`). -/
def joinSegs : List (List Char) → List Char
  | [] => []
  | [s] => s
  | s :: rest => s ++ '/' :: joinSegs rest

/-- All non-empty segment-list initial parts. -/
def segInitials : List (List Char) → List (List (List Char))
  | [] => []
  | s :: rest => [s] :: (segInitials rest).map (fun p => s :: p)

/-- Every ancestor of a path, the path itself included: the directories
`os.makedirs(d)` ensures exist. -/
def pathAncestry (d : String) : List String :=
  (segInitials (splitSlash d.data)).map (fun segs => String.mk (joinSegs segs))

/-- First-match association-list lookup (Python `dict` access /
`dict.get`). -/
def assocLookup {α : Type} (p : String) : List (String × α) → Option α
  | [] => none
  | (k, v) :: rest => if k = p then some v else assocLookup p rest

/-- A CSV file: a list of rows, each a list of cells. -/
abbrev CsvFile : Type := List (List Cell)

/-- The file system visible to the scraper: files (path ↦ CSV content) and
the set of directories ensured by `os.makedirs`. -/
structure FS where
  files : List (String × CsvFile)
  dirs : List String
deriving DecidableEq

/-- `os.path.exists` restricted to the paths the scraper probes (its own
output files). -/
def FS.existsFile (fs : FS) (p : String) : Bool :=
  (assocLookup p fs.files).isSome

/-- `open(p, mode='w')` followed by writing `c`: replaces the content at
`p` if a file is already there, otherwise creates the file. -/
def FS.setFile (fs : FS) (p : String) (c : CsvFile) : FS :=
  if (assocLookup p fs.files).isSome then
    ⟨fs.files.map (fun kv => if kv.1 = p then (p, c) else kv), fs.dirs⟩
  else
    ⟨fs.files ++ [(p, c)], fs.dirs⟩

/-- `os.makedirs(d, exist_ok=True)`: ensures `d` and every missing ancestor
directory exists; touches nothing else and never fails. -/
def FS.makedirs (fs : FS) (d : String) : FS :=
  ⟨fs.files, fs.dirs ++ (pathAncestry d).filter (fun p => ¬ fs.dirs.contains p)⟩

/-- The state of a constructed `GooglePlayScraper` instance. -/
structure GooglePlayScraper where
  app_ids_map : List (String × String)
  raw_data_dir : String
  today_date_str : String
deriving DecidableEq

/-- The first constructor argument as Python sees it: a `dict` value or any
non-`dict` value (the `isinstance(app_ids_map, dict)` check). -/
inductive PyDict where
  | dict (m : List (String × String))
  | nonDict
deriving DecidableEq

/-- The second constructor argument: a `str` value or any non-`str` value
(the `isinstance(raw_data_dir, str)` check). -/
inductive PyStr where
  | str (s : String)
  | nonStr
deriving DecidableEq

/-- `GooglePlayScraper.__init__`: validates the mapping and the output
directory (raising `ValueError`, modelled as `Except.error` carrying the
message, before any directory is created), then records both, fixes the
run-date string from `datetime.now()` (the `now` argument) and ensures the
output directory exists. -/
def GooglePlayScraper.init (app_ids_map : PyDict) (raw_data_dir : PyStr)
    (now : DateTime) (fs : FS) : Except String GooglePlayScraper × FS :=
  match app_ids_map with
  | PyDict.nonDict => (Except.error "app_ids_map must be a non-empty dictionary.", fs)
  | PyDict.dict m =>
    if m = [] then (Except.error "app_ids_map must be a non-empty dictionary.", fs)
    else
      match raw_data_dir with
      | PyStr.nonStr => (Except.error "raw_data_dir must be a non-empty string.", fs)
      | PyStr.str dir =>
        if dir = "" then (Except.error "raw_data_dir must be a non-empty string.", fs)
        else (Except.ok ⟨m, dir, formatYYYYMMDD now⟩, fs.makedirs dir)

/-- The deterministic output path both `scrape_app_reviews` and
`save_reviews_to_csv` compute:
`os.path.join(raw_data_dir, f'{bank_name}_raw_{today}.csv')` with
`bank_name = app_ids_map.get(app_id, 'Unknown_App').replace(' ', '_')`. -/
def rawFilepath (s : GooglePlayScraper) (app_id : String) : String :=
  let bank_name := underscorify ((assocLookup app_id s.app_ids_map).getD "Unknown_App")
  joinPath s.raw_data_dir (bank_name ++ "_raw_" ++ s.today_date_str ++ ".csv")

/-- The external review-retrieval capability (`reviews_all`), taking the
identifier and the fetch parameters (language, country, sort order,
inter-request delay); `none` models a raised exception. -/
def Fetch : Type :=
  String → String → String → SortOrder → Nat → Option (List ReviewRecord)

/-- `scrape_app_reviews`: `None` (here `none`) for an identifier absent
from the mapping or a failed fetch; `[]` (here `some []`) when today's
output file already exists; otherwise the fetched collection. -/
def scrape_app_reviews (s : GooglePlayScraper) (fetch : Fetch) (fs : FS)
    (app_id lang country : String) (sort : SortOrder)
    (sleep_milliseconds : Nat) : Option (List ReviewRecord) :=
  match assocLookup app_id s.app_ids_map with
  | none => none
  | some _ =>
    if fs.existsFile (rawFilepath s app_id) then some []
    else fetch app_id lang country sort sleep_milliseconds

/-- The CSV column names, in the order `csv.DictWriter` writes them. -/
def fieldnames : List String :=
  ["review_text", "rating", "date", "app_id", "source"]

/-- The row `writerow` produces for one review dictionary: content
defaulted to the empty string, score or null, the `'at'` value formatted
when it is a `datetime` and null otherwise, the caller-supplied identifier,
and the constant source label. -/
def outputRow (app_id : String) (e : ReviewRecord) : List Cell :=
  [ Cell.str (e.content.getD ""),
    match e.score with
    | some n => Cell.int n
    | none => Cell.null,
    match e.at' with
    | AtVal.dt d => Cell.str (formatDateTime d)
    | _ => Cell.null,
    Cell.str app_id,
    Cell.str "Google Play" ]

/-- `save_reviews_to_csv`: `None` input yields no path and no write; an
empty list yields the existing file's path when today's file exists and no
path otherwise, writing nothing; a non-empty list writes the header row
followed by one row per record (in the received order) and returns the
path written. -/
def save_reviews_to_csv (s : GooglePlayScraper)
    (reviews : Option (List ReviewRecord)) (app_id : String) (fs : FS) :
    Option String × FS :=
  match reviews with
  | none => (none, fs)
  | some revs =>
    if revs = [] then
      let fp := rawFilepath s app_id
      (if fs.existsFile fp then some fp else none, fs)
    else
      let fp := rawFilepath s app_id
      let content : CsvFile := (fieldnames.map Cell.str) :: revs.map (outputRow app_id)
      (some fp, fs.setFile fp content)

/-- The loop body of `scrape_all_apps` over the remaining identifiers: for
each, fetch (with the default parameters) then save, appending the saved
path to the accumulated manifest when one is returned (Python's
`if saved_filepath:` truthiness also rejects an empty string). -/
def scrapeLoop (s : GooglePlayScraper) (fetch : Fetch) :
    List String → FS → List String → List String × FS
  | [], fs, acc => (acc, fs)
  | app_id :: rest, fs, acc =>
    match scrape_app_reviews s fetch fs app_id "en" "us" SortOrder.newest 100 with
    | none => scrapeLoop s fetch rest fs acc
    | some revs =>
      match save_reviews_to_csv s (some revs) app_id fs with
      | (none, fs') => scrapeLoop s fetch rest fs' acc
      | (some fp, fs') =>
        if fp = "" then scrapeLoop s fetch rest fs' acc
        else scrapeLoop s fetch rest fs' (acc ++ [fp])

/-- `scrape_all_apps`: iterates the mapping's keys in order and returns the
manifest of produced (or reused) file paths together with the resulting
file system. -/
def scrape_all_apps (s : GooglePlayScraper) (fetch : Fetch) (fs : FS) :
    List String × FS :=
  scrapeLoop s fetch (s.app_ids_map.map Prod.fst) fs []

/-- The Boolean "this identifier's fetch succeeds with a non-empty
collection" predicate, at the default fetch parameters `scrape_all_apps`
uses. -/
def succNE (fetch : Fetch) (i : String) : Bool :=
  match fetch i "en" "us" SortOrder.newest 100 with
  | some l => !l.isEmpty
  | none => false

/-- The CSV content `save_reviews_to_csv` writes for identifier `i` when
its fetch succeeds. -/
def fileContentFor (fetch : Fetch) (i : String) : CsvFile :=
  (fieldnames.map Cell.str) ::
    ((fetch i "en" "us" SortOrder.newest 100).getD []).map (outputRow i)

/-! ### Association-list and file-system lemmas -/

theorem assocLookup_append_of_none {α : Type} (p : String)
    (l₁ l₂ : List (String × α)) (h : assocLookup p l₁ = none) :
    assocLookup p (l₁ ++ l₂) = assocLookup p l₂ := by
  induction l₁ with
  | nil => simp
  | cons kv rest ih =>
    obtain ⟨k, v⟩ := kv
    by_cases hk : k = p
    · simp [assocLookup, hk] at h
    · simp only [assocLookup, List.cons_append, if_neg hk] at h ⊢
      exact ih h

theorem assocLookup_append_of_some {α : Type} (p : String)
    (l₁ l₂ : List (String × α)) (v : α) (h : assocLookup p l₁ = some v) :
    assocLookup p (l₁ ++ l₂) = some v := by
  induction l₁ with
  | nil => simp [assocLookup] at h
  | cons kv rest ih =>
    obtain ⟨k, w⟩ := kv
    by_cases hk : k = p
    · simp only [assocLookup, if_pos hk] at h
      simp only [assocLookup, List.cons_append, if_pos hk]
      exact h
    · simp only [assocLookup, if_neg hk] at h
      simp only [assocLookup, List.cons_append, if_neg hk]
      exact ih h

theorem assocLookup_map_replace_self {α : Type} (p : String) (c : α)
    (l : List (String × α)) (h : (assocLookup p l).isSome) :
    assocLookup p (l.map (fun kv => if kv.1 = p then (p, c) else kv)) = some c := by
  induction l with
  | nil => simp [assocLookup] at h
  | cons kv rest ih =>
    obtain ⟨k, v⟩ := kv
    rw [List.map_cons]
    dsimp only
    by_cases hk : k = p
    · subst hk
      rw [if_pos rfl]
      simp [assocLookup]
    · rw [if_neg hk]
      simp only [assocLookup, if_neg hk] at h ⊢
      exact ih h

theorem assocLookup_map_replace_ne {α : Type} (p q : String) (c : α)
    (l : List (String × α)) (h : q ≠ p) :
    assocLookup q (l.map (fun kv => if kv.1 = p then (p, c) else kv)) =
      assocLookup q l := by
  induction l with
  | nil => simp
  | cons kv rest ih =>
    obtain ⟨k, v⟩ := kv
    rw [List.map_cons]
    dsimp only
    by_cases hk : k = p
    · subst hk
      rw [if_pos rfl]
      have h' : ¬ k = q := fun he => h (he.symm)
      simp only [assocLookup, if_neg h']
      exact ih
    · rw [if_neg hk]
      simp only [assocLookup]
      by_cases hq : k = q
      · rw [if_pos hq, if_pos hq]
      · rw [if_neg hq, if_neg hq]
        exact ih

theorem assocLookup_eq_none_of_existsFile_false (fs : FS) (p : String)
    (h : fs.existsFile p = false) : assocLookup p fs.files = none := by
  unfold FS.existsFile at h
  cases ho : assocLookup p fs.files with
  | none => rfl
  | some v => rw [ho] at h; simp at h

theorem setFile_of_not_exists (fs : FS) (p : String) (c : CsvFile)
    (h : fs.existsFile p = false) :
    fs.setFile p c = ⟨fs.files ++ [(p, c)], fs.dirs⟩ := by
  unfold FS.existsFile at h
  simp [FS.setFile, h]

theorem assocLookup_setFile_self (fs : FS) (p : String) (c : CsvFile) :
    assocLookup p (fs.setFile p c).files = some c := by
  unfold FS.setFile
  by_cases h : (assocLookup p fs.files).isSome
  · simp only [if_pos h]
    exact assocLookup_map_replace_self p c fs.files h
  · simp only [if_neg h]
    rw [assocLookup_append_of_none p fs.files _ (Option.not_isSome_iff_eq_none.mp h)]
    simp [assocLookup]

theorem assocLookup_setFile_ne (fs : FS) (p q : String) (c : CsvFile)
    (h : q ≠ p) :
    assocLookup q (fs.setFile p c).files = assocLookup q fs.files := by
  unfold FS.setFile
  by_cases hs : (assocLookup p fs.files).isSome
  · simp only [if_pos hs]
    exact assocLookup_map_replace_ne p q c fs.files h
  · simp only [if_neg hs]
    cases hq : assocLookup q fs.files with
    | some v => exact assocLookup_append_of_some q fs.files _ v hq
    | none =>
      rw [assocLookup_append_of_none q fs.files _ hq]
      have h' : ¬ p = q := fun he => h (he.symm)
      simp [assocLookup, h']

theorem existsFile_setFile_self (fs : FS) (p : String) (c : CsvFile) :
    (fs.setFile p c).existsFile p = true := by
  unfold FS.existsFile
  rw [assocLookup_setFile_self]
  rfl

theorem existsFile_setFile_mono (fs : FS) (p q : String) (c : CsvFile)
    (h : fs.existsFile q = true) : (fs.setFile p c).existsFile q = true := by
  by_cases hpq : q = p
  · subst hpq; exact existsFile_setFile_self fs q c
  · unfold FS.existsFile at h ⊢
    rw [assocLookup_setFile_ne fs p q c hpq]
    exact h

theorem isSome_assocLookup_of_mem_keys {α : Type} (i : String)
    (l : List (String × α)) (h : i ∈ l.map Prod.fst) :
    (assocLookup i l).isSome := by
  induction l with
  | nil => simp at h
  | cons kv rest ih =>
    obtain ⟨k, v⟩ := kv
    by_cases hk : k = i
    · simp [assocLookup, hk]
    · simp only [assocLookup, if_neg hk]
      apply ih
      simp only [List.map_cons, List.mem_cons] at h
      rcases h with h' | h'
      · exact absurd h'.symm hk
      · exact h'

/-! ### Non-emptiness of the computed file paths -/

theorem append_ne_empty (a b : String) (h : b ≠ "") : a ++ b ≠ "" := by
  intro hc
  apply h
  have hd := congrArg String.data hc
  rw [String.data_append] at hd
  have hb : b.data = [] := (List.append_eq_nil.mp hd).2
  exact String.ext (by simpa using hb)

theorem joinPath_ne_empty (d f : String) (h : f ≠ "") : joinPath d f ≠ "" := by
  unfold joinPath
  split_ifs
  · exact h
  · exact append_ne_empty d f h
  · exact append_ne_empty (d ++ "/") f h

theorem rawFilepath_ne_empty (s : GooglePlayScraper) (i : String) :
    rawFilepath s i ≠ "" := by
  unfold rawFilepath
  exact joinPath_ne_empty _ _ (append_ne_empty _ ".csv" (by decide))

/-! ### Branch lemmas for `scrape_app_reviews` and `save_reviews_to_csv` -/

theorem scrape_eq_none_of_not_mem (s : GooglePlayScraper) (fetch : Fetch)
    (fs : FS) (i lang country : String) (so : SortOrder) (sl : Nat)
    (h : assocLookup i s.app_ids_map = none) :
    scrape_app_reviews s fetch fs i lang country so sl = none := by
  simp [scrape_app_reviews, h]

theorem scrape_eq_skip (s : GooglePlayScraper) (fetch : Fetch) (fs : FS)
    (i lang country : String) (so : SortOrder) (sl : Nat) (name : String)
    (hmem : assocLookup i s.app_ids_map = some name)
    (hex : fs.existsFile (rawFilepath s i) = true) :
    scrape_app_reviews s fetch fs i lang country so sl = some [] := by
  simp [scrape_app_reviews, hmem, hex]

theorem scrape_eq_fetch (s : GooglePlayScraper) (fetch : Fetch) (fs : FS)
    (i lang country : String) (so : SortOrder) (sl : Nat) (name : String)
    (hmem : assocLookup i s.app_ids_map = some name)
    (hex : fs.existsFile (rawFilepath s i) = false) :
    scrape_app_reviews s fetch fs i lang country so sl =
      fetch i lang country so sl := by
  simp [scrape_app_reviews, hmem, hex]

theorem save_none_eq (s : GooglePlayScraper) (i : String) (fs : FS) :
    save_reviews_to_csv s none i fs = (none, fs) := rfl

theorem save_nil_of_exists (s : GooglePlayScraper) (i : String) (fs : FS)
    (hex : fs.existsFile (rawFilepath s i) = true) :
    save_reviews_to_csv s (some []) i fs = (some (rawFilepath s i), fs) := by
  simp [save_reviews_to_csv, hex]

theorem save_nil_of_not_exists (s : GooglePlayScraper) (i : String) (fs : FS)
    (hex : fs.existsFile (rawFilepath s i) = false) :
    save_reviews_to_csv s (some []) i fs = (none, fs) := by
  simp [save_reviews_to_csv, hex]

theorem save_cons (s : GooglePlayScraper) (i : String) (fs : FS)
    (revs : List ReviewRecord) (h : revs ≠ []) :
    save_reviews_to_csv s (some revs) i fs =
      (some (rawFilepath s i),
       fs.setFile (rawFilepath s i)
         ((fieldnames.map Cell.str) :: revs.map (outputRow i))) := by
  simp [save_reviews_to_csv, h]

/-! ### Step lemmas for the `scrape_all_apps` loop -/

theorem scrapeLoop_cons (s : GooglePlayScraper) (fetch : Fetch) (a : String)
    (rest : List String) (fs : FS) (acc : List String) :
    scrapeLoop s fetch (a :: rest) fs acc =
      match scrape_app_reviews s fetch fs a "en" "us" SortOrder.newest 100 with
      | none => scrapeLoop s fetch rest fs acc
      | some revs =>
        match save_reviews_to_csv s (some revs) a fs with
        | (none, fs') => scrapeLoop s fetch rest fs' acc
        | (some fp, fs') =>
          if fp = "" then scrapeLoop s fetch rest fs' acc
          else scrapeLoop s fetch rest fs' (acc ++ [fp]) := rfl

theorem scrapeLoop_cons_none (s : GooglePlayScraper) (fetch : Fetch)
    (a : String) (rest : List String) (fs : FS) (acc : List String)
    (hscr : scrape_app_reviews s fetch fs a "en" "us" SortOrder.newest 100 = none) :
    scrapeLoop s fetch (a :: rest) fs acc = scrapeLoop s fetch rest fs acc := by
  rw [scrapeLoop_cons, hscr]

theorem scrapeLoop_cons_skipped (s : GooglePlayScraper) (fetch : Fetch)
    (a : String) (rest : List String) (fs : FS) (acc : List String)
    (hscr : scrape_app_reviews s fetch fs a "en" "us" SortOrder.newest 100 = some [])
    (hex : fs.existsFile (rawFilepath s a) = true) :
    scrapeLoop s fetch (a :: rest) fs acc =
      scrapeLoop s fetch rest fs (acc ++ [rawFilepath s a]) := by
  rw [scrapeLoop_cons, hscr]
  dsimp only
  rw [save_nil_of_exists s a fs hex]
  simp [rawFilepath_ne_empty s a]

theorem scrapeLoop_cons_emptyNoFile (s : GooglePlayScraper) (fetch : Fetch)
    (a : String) (rest : List String) (fs : FS) (acc : List String)
    (hscr : scrape_app_reviews s fetch fs a "en" "us" SortOrder.newest 100 = some [])
    (hex : fs.existsFile (rawFilepath s a) = false) :
    scrapeLoop s fetch (a :: rest) fs acc = scrapeLoop s fetch rest fs acc := by
  rw [scrapeLoop_cons, hscr]
  dsimp only
  rw [save_nil_of_not_exists s a fs hex]

theorem scrapeLoop_cons_saved (s : GooglePlayScraper) (fetch : Fetch)
    (a : String) (rest : List String) (fs : FS) (acc : List String)
    (revs : List ReviewRecord)
    (hscr : scrape_app_reviews s fetch fs a "en" "us" SortOrder.newest 100 = some revs)
    (hne : revs ≠ []) :
    scrapeLoop s fetch (a :: rest) fs acc =
      scrapeLoop s fetch rest
        (fs.setFile (rawFilepath s a)
          ((fieldnames.map Cell.str) :: revs.map (outputRow a)))
        (acc ++ [rawFilepath s a]) := by
  rw [scrapeLoop_cons, hscr]
  dsimp only
  rw [save_cons s a fs revs hne]
  simp [rawFilepath_ne_empty s a]

/-! ### Global lemmas about the `scrape_all_apps` loop -/

theorem scrapeLoop_existsFile_mono (s : GooglePlayScraper) (fetch : Fetch) :
    ∀ (ids : List String) (fs : FS) (acc : List String) (p : String),
      fs.existsFile p = true →
      (scrapeLoop s fetch ids fs acc).2.existsFile p = true := by
  intro ids
  induction ids with
  | nil =>
    intro fs acc p h
    simpa [scrapeLoop] using h
  | cons a rest ih =>
    intro fs acc p h
    cases hscr : scrape_app_reviews s fetch fs a "en" "us" SortOrder.newest 100 with
    | none =>
      rw [scrapeLoop_cons_none s fetch a rest fs acc hscr]
      exact ih fs acc p h
    | some revs =>
      by_cases hrevs : revs = []
      · subst hrevs
        cases hex : fs.existsFile (rawFilepath s a) with
        | true =>
          rw [scrapeLoop_cons_skipped s fetch a rest fs acc hscr hex]
          exact ih fs _ p h
        | false =>
          rw [scrapeLoop_cons_emptyNoFile s fetch a rest fs acc hscr hex]
          exact ih fs acc p h
      · rw [scrapeLoop_cons_saved s fetch a rest fs acc revs hscr hrevs]
        exact ih _ _ p (existsFile_setFile_mono fs _ p _ h)

theorem scrapeLoop_all_exist (s : GooglePlayScraper) (fetch : Fetch) :
    ∀ (ids : List String) (fs : FS) (acc : List String),
      (∀ i ∈ ids, (assocLookup i s.app_ids_map).isSome) →
      (∀ i ∈ ids, fs.existsFile (rawFilepath s i) = true) →
      scrapeLoop s fetch ids fs acc = (acc ++ ids.map (rawFilepath s), fs) := by
  intro ids
  induction ids with
  | nil =>
    intro fs acc _ _
    simp [scrapeLoop]
  | cons a rest ih =>
    intro fs acc hmem hex
    obtain ⟨name, hname⟩ :=
      Option.isSome_iff_exists.mp (hmem a (List.mem_cons_self a rest))
    have hexa := hex a (List.mem_cons_self a rest)
    rw [scrapeLoop_cons_skipped s fetch a rest fs acc
      (scrape_eq_skip s fetch fs a "en" "us" SortOrder.newest 100 name hname hexa)
      hexa]
    rw [ih fs (acc ++ [rawFilepath s a])
      (fun i hi => hmem i (List.mem_cons_of_mem a hi))
      (fun i hi => hex i (List.mem_cons_of_mem a hi))]
    simp

theorem scrapeLoop_all_nonempty (s : GooglePlayScraper) (fetch : Fetch) :
    ∀ (ids : List String) (fs : FS) (acc : List String),
      (∀ i ∈ ids, (assocLookup i s.app_ids_map).isSome) →
      (∀ i ∈ ids, ∃ l, fetch i "en" "us" SortOrder.newest 100 = some l ∧ l ≠ []) →
      (scrapeLoop s fetch ids fs acc).1 = acc ++ ids.map (rawFilepath s) ∧
      (∀ i ∈ ids, (scrapeLoop s fetch ids fs acc).2.existsFile (rawFilepath s i) = true) := by
  intro ids
  induction ids with
  | nil =>
    intro fs acc _ _
    constructor
    · simp [scrapeLoop]
    · intro i hi
      simp at hi
  | cons a rest ih =>
    intro fs acc hmem hfetch
    obtain ⟨name, hname⟩ :=
      Option.isSome_iff_exists.mp (hmem a (List.mem_cons_self a rest))
    have hmem' : ∀ i ∈ rest, (assocLookup i s.app_ids_map).isSome :=
      fun i hi => hmem i (List.mem_cons_of_mem a hi)
    have hfetch' : ∀ i ∈ rest, ∃ l, fetch i "en" "us" SortOrder.newest 100 = some l ∧ l ≠ [] :=
      fun i hi => hfetch i (List.mem_cons_of_mem a hi)
    cases hex : fs.existsFile (rawFilepath s a) with
    | true =>
      rw [scrapeLoop_cons_skipped s fetch a rest fs acc
        (scrape_eq_skip s fetch fs a "en" "us" SortOrder.newest 100 name hname hex)
        hex]
      obtain ⟨h1, h2⟩ := ih fs (acc ++ [rawFilepath s a]) hmem' hfetch'
      refine ⟨by rw [h1]; simp, ?_⟩
      intro i hi
      rcases List.mem_cons.mp hi with hi' | hi'
      · subst hi'
        exact scrapeLoop_existsFile_mono s fetch rest fs _ _ hex
      · exact h2 i hi'
    | false =>
      obtain ⟨l, hl, hlne⟩ := hfetch a (List.mem_cons_self a rest)
      have hscr : scrape_app_reviews s fetch fs a "en" "us" SortOrder.newest 100 = some l := by
        rw [scrape_eq_fetch s fetch fs a "en" "us" SortOrder.newest 100 name hname hex]
        exact hl
      rw [scrapeLoop_cons_saved s fetch a rest fs acc l hscr hlne]
      obtain ⟨h1, h2⟩ := ih _ (acc ++ [rawFilepath s a]) hmem' hfetch'
      refine ⟨by rw [h1]; simp, ?_⟩
      intro i hi
      rcases List.mem_cons.mp hi with hi' | hi'
      · subst hi'
        exact scrapeLoop_existsFile_mono s fetch rest _ _ _
          (existsFile_setFile_self fs _ _)
      · exact h2 i hi'

theorem scrapeLoop_clean (s : GooglePlayScraper) (fetch : Fetch) :
    ∀ (ids : List String) (fs : FS) (acc : List String),
      (∀ i ∈ ids, (assocLookup i s.app_ids_map).isSome) →
      ((ids.map (rawFilepath s)).Nodup) →
      (∀ i ∈ ids, fs.existsFile (rawFilepath s i) = false) →
      scrapeLoop s fetch ids fs acc =
        (acc ++ (ids.filter (succNE fetch)).map (rawFilepath s),
         ⟨fs.files ++ (ids.filter (succNE fetch)).map
             (fun i => (rawFilepath s i, fileContentFor fetch i)), fs.dirs⟩) := by
  intro ids
  induction ids with
  | nil =>
    intro fs acc _ _ _
    simp [scrapeLoop]
  | cons a rest ih =>
    intro fs acc hmem hnodup hclean
    obtain ⟨name, hname⟩ :=
      Option.isSome_iff_exists.mp (hmem a (List.mem_cons_self a rest))
    have hexa := hclean a (List.mem_cons_self a rest)
    have hmem' : ∀ i ∈ rest, (assocLookup i s.app_ids_map).isSome :=
      fun i hi => hmem i (List.mem_cons_of_mem a hi)
    have hnodup' : ((rest.map (rawFilepath s)).Nodup) :=
      (List.nodup_cons.mp (by simpa using hnodup)).2
    have hnotmem : rawFilepath s a ∉ rest.map (rawFilepath s) :=
      (List.nodup_cons.mp (by simpa using hnodup)).1
    cases hf : fetch a "en" "us" SortOrder.newest 100 with
    | none =>
      have hscr : scrape_app_reviews s fetch fs a "en" "us" SortOrder.newest 100 = none := by
        rw [scrape_eq_fetch s fetch fs a "en" "us" SortOrder.newest 100 name hname hexa]
        exact hf
      rw [scrapeLoop_cons_none s fetch a rest fs acc hscr]
      have hsucc : succNE fetch a = false := by simp [succNE, hf]
      rw [List.filter_cons_of_neg (by simp [hsucc])]
      exact ih fs acc hmem' hnodup'
        (fun i hi => hclean i (List.mem_cons_of_mem a hi))
    | some l =>
      by_cases hl : l = []
      · subst hl
        have hscr : scrape_app_reviews s fetch fs a "en" "us" SortOrder.newest 100 = some [] := by
          rw [scrape_eq_fetch s fetch fs a "en" "us" SortOrder.newest 100 name hname hexa]
          exact hf
        rw [scrapeLoop_cons_emptyNoFile s fetch a rest fs acc hscr hexa]
        have hsucc : succNE fetch a = false := by simp [succNE, hf]
        rw [List.filter_cons_of_neg (by simp [hsucc])]
        exact ih fs acc hmem' hnodup'
          (fun i hi => hclean i (List.mem_cons_of_mem a hi))
      · have hscr : scrape_app_reviews s fetch fs a "en" "us" SortOrder.newest 100 = some l := by
          rw [scrape_eq_fetch s fetch fs a "en" "us" SortOrder.newest 100 name hname hexa]
          exact hf
        rw [scrapeLoop_cons_saved s fetch a rest fs acc l hscr hl]
        rw [setFile_of_not_exists fs (rawFilepath s a) _ hexa]
        have hsucc : succNE fetch a = true := by
          simp [succNE, hf]
          cases l with
          | nil => exact absurd rfl hl
          | cons x xs => simp
        have hclean2 : ∀ i ∈ rest,
            (FS.mk (fs.files ++ [(rawFilepath s a,
              (fieldnames.map Cell.str) :: l.map (outputRow a))]) fs.dirs).existsFile
              (rawFilepath s i) = false := by
          intro i hi
          have hne : rawFilepath s i ≠ rawFilepath s a := by
            intro he
            exact hnotmem (he ▸ List.mem_map_of_mem (rawFilepath s) hi)
          unfold FS.existsFile
          rw [assocLookup_append_of_none _ _ _
            (assocLookup_eq_none_of_existsFile_false fs _
              (hclean i (List.mem_cons_of_mem a hi)))]
          have hne' : ¬ rawFilepath s a = rawFilepath s i := fun he => hne (he.symm)
          simp [assocLookup, hne']
        rw [ih _ (acc ++ [rawFilepath s a]) hmem' hnodup' hclean2]
        rw [List.filter_cons_of_pos (by simp [hsucc])]
        have hcontent : fileContentFor fetch a =
            (fieldnames.map Cell.str) :: l.map (outputRow a) := by
          simp [fileContentFor, hf]
        rw [List.map_cons, List.map_cons, hcontent]
        simp

/-! ### Lookup in path-keyed lists and directory-creation lemmas -/

theorem assocLookup_pairs_of_mem {β : Type} (pf : String → String)
    (g : String → β) :
    ∀ (l : List String) (i : String), i ∈ l → ((l.map pf).Nodup) →
      assocLookup (pf i) (l.map (fun j => (pf j, g j))) = some (g i) := by
  intro l
  induction l with
  | nil =>
    intro i hi
    simp at hi
  | cons a rest ih =>
    intro i hi hnd
    rw [List.map_cons] at hnd
    have hnd' := List.nodup_cons.mp hnd
    rw [List.map_cons]
    by_cases hia : i = a
    · subst hia
      simp [assocLookup]
    · have hirest : i ∈ rest := by
        rcases List.mem_cons.mp hi with h' | h'
        · exact absurd h' hia
        · exact h'
      have hne : ¬ pf a = pf i := by
        intro he
        exact hnd'.1 (he ▸ List.mem_map_of_mem pf hirest)
      simp only [assocLookup, if_neg hne]
      exact ih i hirest hnd'.2

theorem assocLookup_pairs_of_forall_ne {β : Type} (pf : String → String)
    (g : String → β) :
    ∀ (l : List String) (q : String), (∀ j ∈ l, pf j ≠ q) →
      assocLookup q (l.map (fun j => (pf j, g j))) = none := by
  intro l
  induction l with
  | nil =>
    intro q _
    simp [assocLookup]
  | cons a rest ih =>
    intro q hq
    rw [List.map_cons]
    simp only [assocLookup, if_neg (hq a (List.mem_cons_self a rest))]
    exact ih q (fun j hj => hq j (List.mem_cons_of_mem a hj))

theorem splitSlash_ne_nil : ∀ l : List Char, splitSlash l ≠ [] := by
  intro l
  cases l with
  | nil => simp [splitSlash]
  | cons c rest =>
    simp only [splitSlash]
    by_cases hc : c = '/'
    · simp [hc]
    · simp only [if_neg hc]
      cases splitSlash rest with
      | nil => simp
      | cons h t => simp

theorem joinSegs_splitSlash : ∀ l : List Char, joinSegs (splitSlash l) = l := by
  intro l
  induction l with
  | nil => rfl
  | cons c rest ih =>
    simp only [splitSlash]
    by_cases hc : c = '/'
    · subst hc
      rw [if_pos rfl]
      cases hr : splitSlash rest with
      | nil => exact absurd hr (splitSlash_ne_nil rest)
      | cons h t =>
        rw [hr] at ih
        simp only [joinSegs]
        cases t with
        | nil =>
          simp only [joinSegs] at ih
          simp [joinSegs, ih]
        | cons t0 ts =>
          simp [joinSegs] at ih ⊢
          exact ih
    · rw [if_neg hc]
      cases hr : splitSlash rest with
      | nil => exact absurd hr (splitSlash_ne_nil rest)
      | cons h t =>
        rw [hr] at ih
        cases t with
        | nil =>
          simp only [joinSegs] at ih
          simp [joinSegs, ih]
        | cons t0 ts =>
          simp only [joinSegs] at ih ⊢
          simp [ih]

theorem mem_segInitials_self :
    ∀ (rest : List (List Char)) (s : List Char),
      (s :: rest) ∈ segInitials (s :: rest) := by
  intro rest
  induction rest with
  | nil =>
    intro s
    simp [segInitials]
  | cons b t ih =>
    intro s
    simp only [segInitials]
    right
    exact List.mem_map_of_mem (fun p => s :: p) (ih b)

theorem self_mem_pathAncestry (d : String) : d ∈ pathAncestry d := by
  unfold pathAncestry
  cases hs : splitSlash d.data with
  | nil => exact absurd hs (splitSlash_ne_nil d.data)
  | cons h t =>
    have hmem : (h :: t) ∈ segInitials (h :: t) := mem_segInitials_self t h
    have := List.mem_map_of_mem (fun segs => String.mk (joinSegs segs)) hmem
    rw [← hs] at this
    have hj : String.mk (joinSegs (splitSlash d.data)) = d := by
      rw [joinSegs_splitSlash]
    rw [hs] at this
    rw [hs] at hj
    exact hj ▸ this

theorem mem_dirs_makedirs (fs : FS) (d p : String) (h : p ∈ pathAncestry d) :
    p ∈ (fs.makedirs d).dirs := by
  unfold FS.makedirs
  by_cases hp : fs.dirs.contains p = true
  · exact List.mem_append_left _ (List.elem_iff.mp hp)
  · apply List.mem_append_right
    apply List.mem_filter.mpr
    refine ⟨h, ?_⟩
    simp
    exact fun hm => hp (List.elem_iff.mpr hm)

theorem makedirs_files (fs : FS) (d : String) : (fs.makedirs d).files = fs.files := rfl

theorem makedirs_makedirs (fs : FS) (d : String) :
    (fs.makedirs d).makedirs d = fs.makedirs d := by
  have hnil : (pathAncestry d).filter
      (fun p => ¬ (fs.makedirs d).dirs.contains p) = [] := by
    apply List.filter_eq_nil_iff.mpr
    intro p hp
    simp only [decide_eq_true_eq, not_not]
    exact List.elem_iff.mpr (mem_dirs_makedirs fs d p hp)
  show FS.mk (fs.makedirs d).files ((fs.makedirs d).dirs ++ _) = fs.makedirs d
  rw [hnil]
  simp

/-! ### Claim theorems -/

/-- C3: for every non-empty collection of records and identifier in the
Source Mapping, `save_reviews_to_csv` returns the deterministic path and
writes there a file with one header row (columns `review_text, rating,
date, app_id, source` in that order) plus exactly one data row per record,
in the order received; each row's date cell is the formatted timestamp when
the `'at'` value is a date-time and null otherwise, and its `app_id` cell
is the supplied identifier, not a record field. -/
theorem C3_persist_row_fidelity (s : GooglePlayScraper) (i name : String)
    (fs : FS) (revs : List ReviewRecord)
    (hmem : assocLookup i s.app_ids_map = some name)
    (hne : revs ≠ []) :
    (save_reviews_to_csv s (some revs) i fs).1 = some (rawFilepath s i) ∧
    assocLookup (rawFilepath s i) (save_reviews_to_csv s (some revs) i fs).2.files =
      some ((fieldnames.map Cell.str) :: revs.map (outputRow i)) ∧
    fieldnames.map Cell.str =
      [Cell.str "review_text", Cell.str "rating", Cell.str "date",
       Cell.str "app_id", Cell.str "source"] ∧
    ((fieldnames.map Cell.str) :: revs.map (outputRow i)).length = revs.length + 1 ∧
    (∀ e : ReviewRecord, outputRow i e =
      [ Cell.str (e.content.getD ""),
        (match e.score with
         | some n => Cell.int n
         | none => Cell.null),
        (match e.at' with
         | AtVal.dt d => Cell.str (formatDateTime d)
         | _ => Cell.null),
        Cell.str i,
        Cell.str "Google Play" ]) := by
  refine ⟨?_, ?_, rfl, by simp, fun e => rfl⟩
  · rw [save_cons s i fs revs hne]
  · rw [save_cons s i fs revs hne]
    exact assocLookup_setFile_self fs (rawFilepath s i) _

/-- C5: for an identifier of the Source Mapping whose output file for the
run date already exists, `scrape_app_reviews` returns the skip sentinel
`[]` for every retrieval capability (so no fetch result is consulted), and
`save_reviews_to_csv` applied to that result returns the existing file's
path with the file system completely unchanged. -/
theorem C5_existing_file_untouched (s : GooglePlayScraper) (fetch : Fetch)
    (fs : FS) (i name lang country : String) (so : SortOrder) (sl : Nat)
    (hmem : assocLookup i s.app_ids_map = some name)
    (hex : fs.existsFile (rawFilepath s i) = true) :
    scrape_app_reviews s fetch fs i lang country so sl = some [] ∧
    save_reviews_to_csv s (scrape_app_reviews s fetch fs i lang country so sl) i fs =
      (some (rawFilepath s i), fs) := by
  have hscr := scrape_eq_skip s fetch fs i lang country so sl name hmem hex
  refine ⟨hscr, ?_⟩
  rw [hscr]
  exact save_nil_of_exists s i fs hex

/-- C7: for an identifier absent from the Source Mapping,
`scrape_app_reviews` returns the `none` sentinel whatever the retrieval
capability, file system and fetch parameters (so neither is consulted),
and that sentinel differs from the empty collection and from every fetched
collection. -/
theorem C7_unknown_identifier (s : GooglePlayScraper) (i : String)
    (hmem : assocLookup i s.app_ids_map = none) :
    ∀ (fetch : Fetch) (fs : FS) (lang country : String) (so : SortOrder) (sl : Nat),
      scrape_app_reviews s fetch fs i lang country so sl = none ∧
      scrape_app_reviews s fetch fs i lang country so sl ≠ some [] ∧
      (∀ l : List ReviewRecord,
        scrape_app_reviews s fetch fs i lang country so sl ≠ some l) := by
  intro fetch fs lang country so sl
  have h := scrape_eq_none_of_not_mem s fetch fs i lang country so sl hmem
  refine ⟨h, ?_, ?_⟩
  · rw [h]; intro hc; exact Option.noConfusion hc
  · intro l
    rw [h]; intro hc; exact Option.noConfusion hc

/-- C9: for a non-empty collection, `save_reviews_to_csv` writes to the
deterministic path unconditionally — for every file system, including one
already holding a file at that path — and afterwards the content at the
path is exactly the newly written rows; the same-day no-overwrite behaviour
is enforced solely by `scrape_app_reviews`'s existence check. -/
theorem C9_persist_overwrites (s : GooglePlayScraper) (i : String) (fs : FS)
    (revs : List ReviewRecord) (hne : revs ≠ []) :
    save_reviews_to_csv s (some revs) i fs =
      (some (rawFilepath s i),
       fs.setFile (rawFilepath s i)
         ((fieldnames.map Cell.str) :: revs.map (outputRow i))) ∧
    assocLookup (rawFilepath s i) (save_reviews_to_csv s (some revs) i fs).2.files =
      some ((fieldnames.map Cell.str) :: revs.map (outputRow i)) := by
  refine ⟨save_cons s i fs revs hne, ?_⟩
  rw [save_cons s i fs revs hne]
  exact assocLookup_setFile_self fs (rawFilepath s i) _

/-- C10: `scrape_app_reviews` returns the same `none` sentinel for an
identifier absent from the Source Mapping and for a fetch that raises, so
the two outcomes are indistinguishable from the result alone; and
`save_reviews_to_csv` maps that sentinel to no file written and an absent
path, identically in both cases. -/
theorem C10_sentinel_conflation :
    (∀ (s : GooglePlayScraper) (fetch : Fetch) (fs : FS)
       (i lang country : String) (so : SortOrder) (sl : Nat),
      assocLookup i s.app_ids_map = none →
        scrape_app_reviews s fetch fs i lang country so sl = none) ∧
    (∀ (s : GooglePlayScraper) (fetch : Fetch) (fs : FS)
       (i name lang country : String) (so : SortOrder) (sl : Nat),
      assocLookup i s.app_ids_map = some name →
        fs.existsFile (rawFilepath s i) = false →
          fetch i lang country so sl = none →
            scrape_app_reviews s fetch fs i lang country so sl = none) ∧
    (∀ (s : GooglePlayScraper) (i : String) (fs : FS),
      save_reviews_to_csv s none i fs = (none, fs)) := by
  refine ⟨?_, ?_, ?_⟩
  · intro s fetch fs i lang country so sl h
    exact scrape_eq_none_of_not_mem s fetch fs i lang country so sl h
  · intro s fetch fs i name lang country so sl hmem hex hf
    rw [scrape_eq_fetch s fetch fs i lang country so sl name hmem hex]
    exact hf
  · intro s i fs
    exact save_none_eq s i fs

/-- C6: constructing the scraper with a non-`dict` mapping, an empty
mapping, a non-`str` output directory or an empty output directory raises
`ValueError` and leaves the file system untouched; on valid inputs it
succeeds, fixing the run date from the construction-time clock, and
ensures the output directory together with every missing ancestor exists,
leaving files untouched and doing nothing on a second invocation for the
same directory. -/
theorem C6_construction_validation (fs : FS) (m : List (String × String))
    (d : PyStr) (dir : String) (now : DateTime) :
    (GooglePlayScraper.init PyDict.nonDict d now fs =
      (Except.error "app_ids_map must be a non-empty dictionary.", fs)) ∧
    (GooglePlayScraper.init (PyDict.dict []) d now fs =
      (Except.error "app_ids_map must be a non-empty dictionary.", fs)) ∧
    (m ≠ [] → GooglePlayScraper.init (PyDict.dict m) PyStr.nonStr now fs =
      (Except.error "raw_data_dir must be a non-empty string.", fs)) ∧
    (m ≠ [] → GooglePlayScraper.init (PyDict.dict m) (PyStr.str "") now fs =
      (Except.error "raw_data_dir must be a non-empty string.", fs)) ∧
    (m ≠ [] → dir ≠ "" →
      GooglePlayScraper.init (PyDict.dict m) (PyStr.str dir) now fs =
        (Except.ok ⟨m, dir, formatYYYYMMDD now⟩, fs.makedirs dir) ∧
      dir ∈ (fs.makedirs dir).dirs ∧
      (∀ p ∈ pathAncestry dir, p ∈ (fs.makedirs dir).dirs) ∧
      (fs.makedirs dir).files = fs.files ∧
      (fs.makedirs dir).makedirs dir = fs.makedirs dir) := by
  refine ⟨rfl, rfl, ?_, ?_, ?_⟩
  · intro hm
    simp [GooglePlayScraper.init, hm]
  · intro hm
    simp [GooglePlayScraper.init, hm]
  · intro hm hd
    refine ⟨by simp [GooglePlayScraper.init, hm, hd], ?_, ?_, makedirs_files fs dir,
      makedirs_makedirs fs dir⟩
    · exact mem_dirs_makedirs fs dir dir (self_mem_pathAncestry dir)
    · intro p hp
      exact mem_dirs_makedirs fs dir p hp

/-- C8: for a scraper successfully constructed from mapping `m`, directory
`dir` and clock value `now`, the run-date string is `now` formatted
`YYYYMMDD`, and for every identifier of the mapping the output path — the
one `save_reviews_to_csv` returns for a non-empty collection and the one
whose existence makes `scrape_app_reviews` skip — is the directory joined
with the display name (spaces replaced by underscores), the literal
`_raw_`, that same fixed date stamp, and `.csv`. -/
theorem C8_deterministic_path (m : List (String × String)) (dir : String)
    (now : DateTime) (fs0 : FS) (s : GooglePlayScraper) (fs1 : FS)
    (hinit : GooglePlayScraper.init (PyDict.dict m) (PyStr.str dir) now fs0 =
      (Except.ok s, fs1)) :
    s.today_date_str = formatYYYYMMDD now ∧
    (∀ i name, assocLookup i m = some name →
      rawFilepath s i =
        joinPath dir (underscorify name ++ "_raw_" ++ formatYYYYMMDD now ++ ".csv")) ∧
    (∀ (i : String) (revs : List ReviewRecord) (fs : FS), revs ≠ [] →
      (save_reviews_to_csv s (some revs) i fs).1 = some (rawFilepath s i)) ∧
    (∀ (i name : String) (fetch : Fetch) (fs : FS) (lang country : String)
       (so : SortOrder) (sl : Nat),
      assocLookup i m = some name →
        fs.existsFile (rawFilepath s i) = true →
          scrape_app_reviews s fetch fs i lang country so sl = some []) := by
  have hs : s = ⟨m, dir, formatYYYYMMDD now⟩ := by
    by_cases hm : m = []
    · simp [GooglePlayScraper.init, hm] at hinit
    · by_cases hd : dir = ""
      · simp [GooglePlayScraper.init, hm, hd] at hinit
      · simp [GooglePlayScraper.init, hm, hd] at hinit
        exact hinit.1.symm
  subst hs
  refine ⟨rfl, ?_, ?_, ?_⟩
  · intro i name hname
    unfold rawFilepath
    simp [hname]
  · intro i revs fs hrevs
    rw [save_cons _ i fs revs hrevs]
  · intro i name fetch fs lang country so sl hname hex
    exact scrape_eq_skip _ fetch fs i lang country so sl name
      (by simpa using hname) hex

/-- A retrieval capability that always succeeds, returning `coll i` for
identifier `i` whatever the other fetch parameters. -/
def collFetch (coll : String → List ReviewRecord) : Fetch :=
  fun i _ _ _ _ => some (coll i)

/-- C1 (amended with the premise that distinct identifiers yield distinct
output paths): from a file system holding none of the output files,
`scrape_all_apps` with an always-succeeding retrieval capability creates
exactly one output file for each identifier whose collection is non-empty —
the final file list is the initial one extended, in iteration order, by
exactly those files — and no file exists at the deterministic path of any
identifier whose collection is empty. -/
theorem C1_run_all_output_files (s : GooglePlayScraper)
    (coll : String → List ReviewRecord) (fs : FS)
    (hne : s.app_ids_map ≠ [])
    (hnodup : (((s.app_ids_map.map Prod.fst).map (rawFilepath s)).Nodup))
    (hclean : ∀ i ∈ s.app_ids_map.map Prod.fst,
      fs.existsFile (rawFilepath s i) = false) :
    (scrape_all_apps s (collFetch coll) fs).2.files =
      fs.files ++ (((s.app_ids_map.map Prod.fst).filter
          (fun i => !(coll i).isEmpty)).map
        (fun i => (rawFilepath s i,
          ((fieldnames.map Cell.str) :: (coll i).map (outputRow i) : CsvFile)))) ∧
    ∀ i ∈ s.app_ids_map.map Prod.fst,
      (coll i ≠ [] →
        (scrape_all_apps s (collFetch coll) fs).2.existsFile (rawFilepath s i) = true) ∧
      (coll i = [] →
        (scrape_all_apps s (collFetch coll) fs).2.existsFile (rawFilepath s i) = false) := by
  have hmem : ∀ i ∈ s.app_ids_map.map Prod.fst, (assocLookup i s.app_ids_map).isSome :=
    fun i hi => isSome_assocLookup_of_mem_keys i s.app_ids_map hi
  have hrun : scrape_all_apps s (collFetch coll) fs =
      ([] ++ ((s.app_ids_map.map Prod.fst).filter
          (fun i => !(coll i).isEmpty)).map (rawFilepath s),
       ⟨fs.files ++ ((s.app_ids_map.map Prod.fst).filter
           (fun i => !(coll i).isEmpty)).map
         (fun i => (rawFilepath s i, fileContentFor (collFetch coll) i)), fs.dirs⟩) :=
    scrapeLoop_clean s (collFetch coll) (s.app_ids_map.map Prod.fst) fs [] hmem
      hnodup hclean
  have hfiltnd : ((((s.app_ids_map.map Prod.fst).filter
      (fun i => !(coll i).isEmpty)).map (rawFilepath s))).Nodup :=
    List.Nodup.sublist ((List.filter_sublist _).map (rawFilepath s)) hnodup
  constructor
  · rw [hrun]
    rfl
  · intro i hi
    constructor
    · intro hcoll
      have hfilt : i ∈ (s.app_ids_map.map Prod.fst).filter
          (fun i => !(coll i).isEmpty) := by
        apply List.mem_filter.mpr
        refine ⟨hi, ?_⟩
        cases hc : coll i with
        | nil => exact absurd hc hcoll
        | cons x xs => simp
      rw [hrun]
      unfold FS.existsFile
      rw [assocLookup_append_of_none _ _ _
        (assocLookup_eq_none_of_existsFile_false fs _ (hclean i hi))]
      rw [assocLookup_pairs_of_mem (rawFilepath s) (fileContentFor (collFetch coll))
        _ i hfilt hfiltnd]
      rfl
    · intro hcoll
      rw [hrun]
      unfold FS.existsFile
      rw [assocLookup_append_of_none _ _ _
        (assocLookup_eq_none_of_existsFile_false fs _ (hclean i hi))]
      rw [assocLookup_pairs_of_forall_ne (rawFilepath s)
        (fileContentFor (collFetch coll)) _ (rawFilepath s i) ?hne]
      · rfl
      case hne =>
        intro j hj he
        obtain ⟨hjmem, hjpred⟩ := List.mem_filter.mp hj
        have hji : j = i :=
          List.inj_on_of_nodup_map hnodup hjmem hi he
        subst hji
        rw [hcoll] at hjpred
        simp at hjpred

/-- C2 (amended with the premise that every identifier's fetch in the
first run returns a non-empty collection): the first `scrape_all_apps`
run returns the full manifest of deterministic paths, and a second run —
with an arbitrary retrieval capability, in particular one that fails if
invoked — returns exactly the first run's manifest and leaves the file
system exactly as the first run left it. -/
theorem C2_second_run_idempotent (s : GooglePlayScraper) (f : Fetch) (fs : FS)
    (hfetch : ∀ i ∈ s.app_ids_map.map Prod.fst,
      ∃ l, f i "en" "us" SortOrder.newest 100 = some l ∧ l ≠ []) :
    (scrape_all_apps s f fs).1 =
      (s.app_ids_map.map Prod.fst).map (rawFilepath s) ∧
    ∀ g : Fetch,
      scrape_all_apps s g (scrape_all_apps s f fs).2 = scrape_all_apps s f fs := by
  have hmem : ∀ i ∈ s.app_ids_map.map Prod.fst, (assocLookup i s.app_ids_map).isSome :=
    fun i hi => isSome_assocLookup_of_mem_keys i s.app_ids_map hi
  obtain ⟨h1, h2⟩ :=
    scrapeLoop_all_nonempty s f (s.app_ids_map.map Prod.fst) fs [] hmem hfetch
  have hm : (scrape_all_apps s f fs).1 =
      (s.app_ids_map.map Prod.fst).map (rawFilepath s) := by
    unfold scrape_all_apps
    rw [h1]
    simp
  refine ⟨hm, ?_⟩
  intro g
  have hrun2 : scrapeLoop s g (s.app_ids_map.map Prod.fst)
      (scrape_all_apps s f fs).2 [] =
      ([] ++ (s.app_ids_map.map Prod.fst).map (rawFilepath s),
       (scrape_all_apps s f fs).2) :=
    scrapeLoop_all_exist s g (s.app_ids_map.map Prod.fst)
      (scrape_all_apps s f fs).2 [] hmem h2
  show scrapeLoop s g (s.app_ids_map.map Prod.fst) (scrape_all_apps s f fs).2 [] =
    scrape_all_apps s f fs
  rw [hrun2, List.nil_append, ← hm]

/-- C4 (amended): with every output file initially absent and distinct
identifiers yielding distinct paths, a raising fetch for one identifier
never stops the loop — the manifest equals, in iteration order, the paths
of exactly those identifiers whose fetch succeeds with a non-empty
collection — and a failing identifier's path never appears in the manifest
(nor does the path of an identifier fetching an empty collection). -/
theorem C4_failure_isolation (s : GooglePlayScraper) (fetch : Fetch) (fs : FS)
    (hnodup : (((s.app_ids_map.map Prod.fst).map (rawFilepath s)).Nodup))
    (hclean : ∀ i ∈ s.app_ids_map.map Prod.fst,
      fs.existsFile (rawFilepath s i) = false) :
    (scrape_all_apps s fetch fs).1 =
      ((s.app_ids_map.map Prod.fst).filter (succNE fetch)).map (rawFilepath s) ∧
    ∀ i ∈ s.app_ids_map.map Prod.fst,
      fetch i "en" "us" SortOrder.newest 100 = none →
        rawFilepath s i ∉ (scrape_all_apps s fetch fs).1 := by
  have hmem : ∀ i ∈ s.app_ids_map.map Prod.fst, (assocLookup i s.app_ids_map).isSome :=
    fun i hi => isSome_assocLookup_of_mem_keys i s.app_ids_map hi
  have hrun := scrapeLoop_clean s fetch (s.app_ids_map.map Prod.fst) fs [] hmem
    hnodup hclean
  have hm : (scrape_all_apps s fetch fs).1 =
      ((s.app_ids_map.map Prod.fst).filter (succNE fetch)).map (rawFilepath s) := by
    unfold scrape_all_apps
    rw [hrun]
    simp
  refine ⟨hm, ?_⟩
  intro i hi hf hin
  rw [hm] at hin
  obtain ⟨j, hj, hje⟩ := List.mem_map.mp hin
  obtain ⟨hjmem, hjpred⟩ := List.mem_filter.mp hj
  have hji : j = i := List.inj_on_of_nodup_map hnodup hjmem hi hje
  subst hji
  rw [succNE, hf] at hjpred
  exact Bool.noConfusion hjpred

/-! ### Concrete instances for witnesses and counterexamples -/

/-- The empty file system. -/
def fsEmpty : FS := ⟨[], []⟩

/-- A sample review with every consumed field present. -/
def rec1 : ReviewRecord := ⟨some "Great", some 5, AtVal.dt ⟨2023, 10, 27, 10, 0, 0⟩⟩

/-- A second sample review. -/
def rec2 : ReviewRecord := ⟨some "Bad", some 1, AtVal.dt ⟨2023, 10, 27, 11, 0, 0⟩⟩

/-- A review with every consumed field absent. -/
def rec3 : ReviewRecord := ⟨none, none, AtVal.absent⟩

/-- A one-identifier scraper state. -/
def oneAppScraper : GooglePlayScraper :=
  ⟨[("com.a.app", "Bank A")], "out", "20231027"⟩

/-- A two-identifier scraper state with distinct display names. -/
def twoAppScraper : GooglePlayScraper :=
  ⟨[("com.a.app", "Bank A"), ("com.b.app", "Other Bank")], "out", "20231027"⟩

/-- A two-identifier scraper state whose display names collide. -/
def collideScraper : GooglePlayScraper :=
  ⟨[("com.a.app", "Bank X"), ("com.b.app", "Bank X")], "out", "20231027"⟩

/-- A three-identifier scraper state. -/
def threeAppScraper : GooglePlayScraper :=
  ⟨[("com.a.app", "Bank A"), ("com.b.app", "Bank B"), ("com.c.app", "Bank C")],
   "out", "20231027"⟩

/-- Retrieval results: two reviews for the first identifier, none for the
rest. -/
def twoAppColl (i : String) : List ReviewRecord :=
  if i = "com.a.app" then [rec1, rec2] else []

/-- Retrieval results: one review for the first identifier, an empty
collection for the rest. -/
def collideColl (i : String) : List ReviewRecord :=
  if i = "com.a.app" then [rec1] else []

/-- A capability returning an empty collection for every identifier. -/
def emptyFetch : Fetch := fun _ _ _ _ _ => some []

/-- A capability returning one review for every identifier. -/
def oneRecFetch : Fetch := fun _ _ _ _ _ => some [rec1]

/-- The fail-if-invoked capability: raises on every call. -/
def noneFetch : Fetch := fun _ _ _ _ _ => none

/-- A capability raising exactly on the second of three identifiers. -/
def failSecondFetch : Fetch := fun i _ _ _ _ =>
  if i = "com.b.app" then none else some [rec1]

/-- A capability mixing the three outcomes: empty collection, raise, one
review. -/
def mixedFetch : Fetch := fun i _ _ _ _ =>
  if i = "com.a.app" then some [] else if i = "com.b.app" then none else some [rec1]

/-- A file system already holding a (differently filled) output file for
`oneAppScraper`'s single identifier. -/
def preExistingFS : FS :=
  ⟨[("out/Bank_A_raw_20231027.csv", [[Cell.str "old"]])], []⟩

/-! ### Witnesses and counterexamples -/

/-- C1 witness: on a clean file system with two distinct display names,
the identifier fetching two reviews gets exactly its file and the
identifier fetching an empty collection gets none. -/
theorem C1_run_all_output_files_witness :
    (scrape_all_apps twoAppScraper (collFetch twoAppColl) fsEmpty).2.existsFile
        (rawFilepath twoAppScraper "com.a.app") = true ∧
    (scrape_all_apps twoAppScraper (collFetch twoAppColl) fsEmpty).2.existsFile
        (rawFilepath twoAppScraper "com.b.app") = false := by
  have h := C1_run_all_output_files twoAppScraper twoAppColl fsEmpty (by decide)
    (by decide) (by decide)
  exact ⟨(h.2 "com.a.app" (by decide)).1 (by decide),
         (h.2 "com.b.app" (by decide)).2 (by decide)⟩

/-- C1 counterexample: with colliding display names, the identifier whose
retrieval returns an empty collection nonetheless ends up with a file at
its deterministic output path (written for the other identifier), and that
path even appears in the manifest — refuting "no file for any identifier
returning an empty collection" over all non-empty Source Mappings. -/
theorem C1_counterexample :
    collideColl "com.b.app" = [] ∧
    (scrape_all_apps collideScraper (collFetch collideColl) fsEmpty).2.existsFile
        (rawFilepath collideScraper "com.b.app") = true ∧
    rawFilepath collideScraper "com.b.app"
      ∈ (scrape_all_apps collideScraper (collFetch collideColl) fsEmpty).1 := by
  decide

/-- C2 witness: after a first run whose single fetch returns one review,
a second run with the fail-if-invoked capability returns the same manifest
and file system. -/
theorem C2_second_run_idempotent_witness :
    (scrape_all_apps oneAppScraper oneRecFetch fsEmpty).1 =
      (oneAppScraper.app_ids_map.map Prod.fst).map (rawFilepath oneAppScraper) ∧
    scrape_all_apps oneAppScraper noneFetch
        (scrape_all_apps oneAppScraper oneRecFetch fsEmpty).2 =
      scrape_all_apps oneAppScraper oneRecFetch fsEmpty := by
  have h := C2_second_run_idempotent oneAppScraper oneRecFetch fsEmpty
    (fun i _ => ⟨[rec1], rfl, by decide⟩)
  exact ⟨h.1, h.2 noneFetch⟩

/-- C2 counterexample: when the first run's fetch returns an empty
collection, no file is written, so a second same-day run fetches again and
returns a different manifest — refuting the unconditional idempotence
claim. -/
theorem C2_counterexample :
    (scrape_all_apps oneAppScraper emptyFetch fsEmpty).1 = [] ∧
    (scrape_all_apps oneAppScraper oneRecFetch
        (scrape_all_apps oneAppScraper emptyFetch fsEmpty).2).1 =
      ["out/Bank_A_raw_20231027.csv"] ∧
    (scrape_all_apps oneAppScraper oneRecFetch
        (scrape_all_apps oneAppScraper emptyFetch fsEmpty).2).1 ≠
      (scrape_all_apps oneAppScraper emptyFetch fsEmpty).1 := by
  decide

/-- C3 witness: persisting three concrete records (full, full, all-absent)
writes a header plus three rows with the documented cell values. -/
theorem C3_persist_row_fidelity_witness :
    rawFilepath oneAppScraper "com.a.app" = "out/Bank_A_raw_20231027.csv" ∧
    (save_reviews_to_csv oneAppScraper (some [rec1, rec2, rec3])
        "com.a.app" fsEmpty).1 = some (rawFilepath oneAppScraper "com.a.app") ∧
    assocLookup (rawFilepath oneAppScraper "com.a.app")
        (save_reviews_to_csv oneAppScraper (some [rec1, rec2, rec3])
          "com.a.app" fsEmpty).2.files =
      some [[Cell.str "review_text", Cell.str "rating", Cell.str "date",
             Cell.str "app_id", Cell.str "source"],
            [Cell.str "Great", Cell.int 5, Cell.str "2023-10-27 10:00:00",
             Cell.str "com.a.app", Cell.str "Google Play"],
            [Cell.str "Bad", Cell.int 1, Cell.str "2023-10-27 11:00:00",
             Cell.str "com.a.app", Cell.str "Google Play"],
            [Cell.str "", Cell.null, Cell.null,
             Cell.str "com.a.app", Cell.str "Google Play"]] := by
  have h := C3_persist_row_fidelity oneAppScraper "com.a.app" "Bank A" fsEmpty
    [rec1, rec2, rec3] (by decide) (by decide)
  exact ⟨by decide, h.1, h.2.1.trans (by decide)⟩

/-- C4 witness: with the second of three identifiers failing, the first
and third are still processed and contribute their paths; the second's
path is absent. -/
theorem C4_failure_isolation_witness :
    (scrape_all_apps threeAppScraper failSecondFetch fsEmpty).1 =
      ((threeAppScraper.app_ids_map.map Prod.fst).filter
        (succNE failSecondFetch)).map (rawFilepath threeAppScraper) ∧
    (scrape_all_apps threeAppScraper failSecondFetch fsEmpty).1 =
      ["out/Bank_A_raw_20231027.csv", "out/Bank_C_raw_20231027.csv"] ∧
    rawFilepath threeAppScraper "com.b.app" ∉
      (scrape_all_apps threeAppScraper failSecondFetch fsEmpty).1 := by
  have h := C4_failure_isolation threeAppScraper failSecondFetch fsEmpty
    (by decide) (by decide)
  exact ⟨h.1, by decide, h.2 "com.b.app" (by decide) (by decide)⟩

/-- C4 counterexample: identifier `com.a.app` succeeds (the capability
returns an empty collection, raising nothing), yet its path is omitted
from the manifest — refuting "the manifest contains the paths of all
succeeding identifiers, omitting only the failing identifier's path". -/
theorem C4_counterexample :
    mixedFetch "com.a.app" "en" "us" SortOrder.newest 100 = some [] ∧
    mixedFetch "com.b.app" "en" "us" SortOrder.newest 100 = none ∧
    (scrape_all_apps threeAppScraper mixedFetch fsEmpty).1 =
      ["out/Bank_C_raw_20231027.csv"] ∧
    rawFilepath threeAppScraper "com.a.app" ∉
      (scrape_all_apps threeAppScraper mixedFetch fsEmpty).1 := by
  decide

/-- C5 witness: with the output file already present, fetch-one (given the
fail-if-invoked capability) skips, and persist returns the existing path
with the file system unchanged. -/
theorem C5_existing_file_untouched_witness :
    scrape_app_reviews oneAppScraper noneFetch preExistingFS "com.a.app" "en" "us"
        SortOrder.newest 100 = some [] ∧
    save_reviews_to_csv oneAppScraper
        (scrape_app_reviews oneAppScraper noneFetch preExistingFS "com.a.app"
          "en" "us" SortOrder.newest 100) "com.a.app" preExistingFS =
      (some (rawFilepath oneAppScraper "com.a.app"), preExistingFS) :=
  C5_existing_file_untouched oneAppScraper noneFetch preExistingFS "com.a.app"
    "Bank A" "en" "us" SortOrder.newest 100 (by decide) (by decide)

/-- C6 witness: valid construction succeeds, fixes the run date and
ensures the output directory (with its ancestor) exists. -/
theorem C6_construction_validation_witness :
    GooglePlayScraper.init (PyDict.dict [("com.a.app", "Bank A")])
        (PyStr.str "data/raw") ⟨2023, 10, 27, 0, 0, 0⟩ fsEmpty =
      (Except.ok ⟨[("com.a.app", "Bank A")], "data/raw",
        formatYYYYMMDD ⟨2023, 10, 27, 0, 0, 0⟩⟩, fsEmpty.makedirs "data/raw") ∧
    "data/raw" ∈ (fsEmpty.makedirs "data/raw").dirs ∧
    "data" ∈ (fsEmpty.makedirs "data/raw").dirs := by
  have h := C6_construction_validation fsEmpty [("com.a.app", "Bank A")]
    PyStr.nonStr "data/raw" ⟨2023, 10, 27, 0, 0, 0⟩
  obtain ⟨-, -, -, -, h5⟩ := h
  have h5' := h5 (by decide) (by decide)
  exact ⟨h5'.1, h5'.2.1, h5'.2.2.1 "data" (by decide)⟩

/-- C7 witness: an identifier outside the one-entry mapping yields the
`none` sentinel, distinct from the skip sentinel. -/
theorem C7_unknown_identifier_witness :
    scrape_app_reviews oneAppScraper oneRecFetch fsEmpty "com.unknown" "en" "us"
        SortOrder.newest 100 = none ∧
    scrape_app_reviews oneAppScraper oneRecFetch fsEmpty "com.unknown" "en" "us"
        SortOrder.newest 100 ≠ some [] := by
  have h := C7_unknown_identifier oneAppScraper "com.unknown" (by decide)
    oneRecFetch fsEmpty "en" "us" SortOrder.newest 100
  exact ⟨h.1, h.2.1⟩

/-- C8 witness: the scraper constructed at a concrete clock instant
carries that instant's `YYYYMMDD` stamp, and its single identifier's path
follows the documented formula. -/
theorem C8_deterministic_path_witness :
    oneAppScraper.today_date_str = formatYYYYMMDD ⟨2023, 10, 27, 12, 0, 0⟩ ∧
    rawFilepath oneAppScraper "com.a.app" =
      joinPath "out" (underscorify "Bank A" ++ "_raw_" ++
        formatYYYYMMDD ⟨2023, 10, 27, 12, 0, 0⟩ ++ ".csv") := by
  have h := C8_deterministic_path [("com.a.app", "Bank A")] "out"
    ⟨2023, 10, 27, 12, 0, 0⟩ fsEmpty oneAppScraper (fsEmpty.makedirs "out") rfl
  exact ⟨h.1, h.2.1 "com.a.app" "Bank A" (by decide)⟩

/-- C9 witness: persisting one review over a file system that already
holds different content at the path replaces that content. -/
theorem C9_persist_overwrites_witness :
    save_reviews_to_csv oneAppScraper (some [rec1]) "com.a.app" preExistingFS =
      (some (rawFilepath oneAppScraper "com.a.app"),
       preExistingFS.setFile (rawFilepath oneAppScraper "com.a.app")
         ((fieldnames.map Cell.str) :: [rec1].map (outputRow "com.a.app"))) ∧
    assocLookup (rawFilepath oneAppScraper "com.a.app")
        (save_reviews_to_csv oneAppScraper (some [rec1])
          "com.a.app" preExistingFS).2.files =
      some ((fieldnames.map Cell.str) :: [rec1].map (outputRow "com.a.app")) :=
  C9_persist_overwrites oneAppScraper "com.a.app" preExistingFS [rec1] (by decide)

/-- C10 witness: the unknown-identifier outcome and the raising-fetch
outcome produce the same `none` value, and persist maps it to no file and
no path. -/
theorem C10_sentinel_conflation_witness :
    scrape_app_reviews oneAppScraper noneFetch fsEmpty "com.unknown" "en" "us"
        SortOrder.newest 100 = none ∧
    scrape_app_reviews oneAppScraper noneFetch fsEmpty "com.a.app" "en" "us"
        SortOrder.newest 100 = none ∧
    save_reviews_to_csv oneAppScraper none "com.a.app" fsEmpty = (none, fsEmpty) := by
  have h := C10_sentinel_conflation
  exact ⟨h.1 oneAppScraper noneFetch fsEmpty "com.unknown" "en" "us"
           SortOrder.newest 100 (by decide),
         h.2.1 oneAppScraper noneFetch fsEmpty "com.a.app" "Bank A" "en" "us"
           SortOrder.newest 100 (by decide) (by decide) rfl,
         h.2.2 oneAppScraper "com.a.app" fsEmpty⟩

end Scraper
